import Mathlib

set_option autoImplicit false
set_option maxHeartbeats 1000000

/- Shallow embedding of the core of graymind75/fake-rest:
   `src/server/request.rs` (byte-level request parser) and
   `src/server/response.rs` (status registry and response resolver).

   Modelling conventions:
   * Rust `HashMap<String, String>` is modelled as an association list in
     which an insertion erases the previous binding of the key, so lookups
     see exactly the hash-map content; iteration order of a `HashMap` is
     unspecified in Rust and no property below depends on list order.
   * Bytes (`u8`) read from the socket are modelled as `Char` restricted in
     practice to the ASCII range (every byte compared by the source is an
     ASCII character, and UTF-8 decoding of ASCII is the identity).
   * `Vec<u8>` response bodies are modelled as `List UInt8`.
   * Error payloads (the message strings carried by some variants of
     `crate::error::Error`) are elided; only the variant matters here. -/

/-- The error enumeration of `crate::error::Error`, restricted to the variants
reachable from the two embedded source files.  `IoError` stands for any
propagated transport or filesystem error. -/
inductive AppError where
  | ParsingError
  | ConfigRequiredHeadersError
  | ConfigRequiredQueriesError
  | ConfigFileOpenError
  | ConfigParsingError
  | IoError
  deriving DecidableEq, Repr

/-- Rust `str::split(char)` on the character list of a string: a full split
keeping empty segments, exactly as in Rust where `"".split(d)` yields one
empty segment and adjacent delimiters yield empty segments. -/
def splitChar (d : Char) : List Char → List (List Char)
  | [] => [[]]
  | c :: rest =>
    if c = d then [] :: splitChar d rest
    else
      match splitChar d rest with
      | [] => [[c]]
      | s :: ss => (c :: s) :: ss

/-- Rust `str::split(char)` at the `String` level. -/
def rustSplit (s : String) (d : Char) : List String :=
  (splitChar d s.data).map String.mk

/-- Rust `str::trim` on a character list.  Rust trims Unicode `White_Space`;
`Char.isWhitespace` covers the ASCII subset, which is all that any input in
the embedded code paths can contain after UTF-8-decoding header/config text. -/
def trimChars (l : List Char) : List Char :=
  ((l.dropWhile Char.isWhitespace).reverse.dropWhile Char.isWhitespace).reverse

/-- Rust `str::trim` at the `String` level. -/
def rustTrim (s : String) : String :=
  String.mk (trimChars s.data)

/-- The UTF-8 encoding of one character, as in Rust `String::into_bytes` /
`str::as_bytes`. -/
def utf8EncodeChar (c : Char) : List UInt8 :=
  let n := c.toNat
  if n < 0x80 then [UInt8.ofNat n]
  else if n < 0x800 then
    [UInt8.ofNat (0xC0 ||| (n >>> 6)), UInt8.ofNat (0x80 ||| (n &&& 0x3F))]
  else if n < 0x10000 then
    [UInt8.ofNat (0xE0 ||| (n >>> 12)), UInt8.ofNat (0x80 ||| ((n >>> 6) &&& 0x3F)),
     UInt8.ofNat (0x80 ||| (n &&& 0x3F))]
  else
    [UInt8.ofNat (0xF0 ||| (n >>> 18)), UInt8.ofNat (0x80 ||| ((n >>> 12) &&& 0x3F)),
     UInt8.ofNat (0x80 ||| ((n >>> 6) &&& 0x3F)), UInt8.ofNat (0x80 ||| (n &&& 0x3F))]

/-- The UTF-8 byte sequence of a string: Rust `String::into_bytes` and
`str::as_bytes`, modelled as a `List UInt8`. -/
def utf8Bytes (s : String) : List UInt8 :=
  s.data.flatMap utf8EncodeChar

/-- Association-list model of `HashMap<String, String>`: first-match lookup,
the model of `HashMap::get`. -/
def lookupKV (m : List (String × String)) (k : String) : Option String :=
  match m with
  | [] => none
  | (k', v) :: rest => if k' = k then some v else lookupKV rest k

/-- The model of `HashMap::insert`: the new binding replaces any previous
binding of the same key. -/
def insertKV (m : List (String × String)) (k v : String) : List (String × String) :=
  (k, v) :: m.filter (fun p => p.1 != k)

/-- The model of `HashMap::contains_key` (case-sensitive, as in Rust). -/
def containsKey (m : List (String × String)) (k : String) : Bool :=
  m.any (fun p => p.1 == k)

/-- Modelled from the spec: the Key-Value Line Splitter `helpers::get_key_value`,
whose source file is not among the reviewed sources.  Per spec section 4.1: split
the line on the first occurrence of the single-character delimiter, trim
surrounding whitespace from both halves, return the pair; fail with a
ParsingError when the delimiter is absent. -/
def get_key_value (line : String) (delim : Char) : Except AppError (String × String) :=
  match splitFirst delim line.data with
  | none => .error .ParsingError
  | some (k, v) => .ok (rustTrim (String.mk k), rustTrim (String.mk v))
where
  /-- Split a character list at the first occurrence of `d`; `none` when `d`
  does not occur. -/
  splitFirst (d : Char) : List Char → Option (List Char × List Char)
    | [] => none
    | c :: rest =>
      if c = d then some ([], rest)
      else (splitFirst d rest).map (fun p => (c :: p.1, p.2))

/-- `Method` from `src/server/request.rs`: closed enumeration of the six
supported request methods. -/
inductive Method where
  | GET
  | POST
  | PUT
  | PATCH
  | OPTION
  | DELETE
  deriving DecidableEq, Repr

/-- `impl From<String> for Method`: an unrecognized token maps to `GET`. -/
def Method.fromString (s : String) : Method :=
  if s = "GET" then .GET
  else if s = "POST" then .POST
  else if s = "PUT" then .PUT
  else if s = "PATCH" then .PATCH
  else if s = "OPTION" then .OPTION
  else if s = "DELETE" then .DELETE
  else .GET

/-- `Request` from `src/server/request.rs`. -/
structure Request where
  method : Method
  uri : String
  version : String
  headers : List (String × String)
  query_strings : List (String × String)
  deriving DecidableEq, Repr

/-- Outcome of the byte-accumulation loop of `Request::new` (lines 61-80 of
`request.rs`).  `panicOut` marks the arithmetic-underflow panic of
`buff[..buff.len() - 2]` when fewer than two bytes are in the line buffer. -/
inductive LoopOut where
  | done (info : String) (headers : List (String × String))
  | errOut (e : AppError)
  | panicOut
  deriving DecidableEq, Repr

/-- The byte-accumulation loop of `Request::new`: one byte is consumed per
step; on `\n` the line is finished.  While `request_info` is still empty the
line becomes the request line; afterwards an empty `\r\n` line terminates the
loop and any other line is parsed as a header via `get_key_value`.  Exhausting
the input models the socket read failing (`read_u8` returning `Err`). -/
def requestLoop : List Char → String → List (String × String) → List Char → LoopOut
  | [], _, _, _ => .errOut .IoError
  | b :: input, info, headers, buff =>
    let buff := buff ++ [b]
    if b = '\n' then
      if info = "" then
        if buff.length < 2 then .panicOut
        else requestLoop input (String.mk (buff.take (buff.length - 2))) headers []
      else if buff.length = 2 ∧ buff.head? = some '\r' then .done info headers
      else if buff.length < 2 then .panicOut
      else
        match get_key_value (String.mk (buff.take (buff.length - 2))) ':' with
        | .ok kv => requestLoop input info (insertKV headers kv.1 kv.2) []
        | .error e => .errOut e
    else requestLoop input info headers buff

/-- Splitting of the request-target (`request.rs` lines 87-102): split `uri`
on `?`; the first segment is the path; when a second segment exists, it (and
only it) is split on `&` and each piece goes through `get_key_value` with
delimiter `=` into the query map. -/
def parseQueries (queries : String) : Except AppError (List (String × String)) :=
  go (rustSplit queries '&') []
where
  go : List String → List (String × String) → Except AppError (List (String × String))
    | [], acc => .ok acc
    | q :: qs, acc =>
      match get_key_value q '=' with
      | .ok kv => go qs (insertKV acc kv.1 kv.2)
      | .error e => .error e

/-- The uri/query-string extraction of `Request::new` (`request.rs` lines
87-102), as a function of the raw request-target. -/
def parseTarget (target : String) : Except AppError (String × List (String × String)) :=
  match rustSplit target '?' with
  | [] => .error .ParsingError
  | uri :: rest =>
    match rest with
    | [] => .ok (uri, [])
    | queries :: _ => (parseQueries queries).map (fun qs => (uri, qs))

/-- Overall outcome of `Request::new`. -/
inductive ParseOut where
  | ok (r : Request)
  | err (e : AppError)
  | panic
  deriving DecidableEq, Repr

/-- `Request::new` from `src/server/request.rs`, as a function of the byte
stream delivered by the socket: run the accumulation loop, split the request
line on spaces into method/target/version tokens (missing tokens default to
the empty string), then split the target into uri and query strings. -/
def Request.new (input : List Char) : ParseOut :=
  match requestLoop input "" [] [] with
  | .panicOut => .panic
  | .errOut e => .err e
  | .done info headers =>
    let toks := rustSplit info ' '
    let method := Method.fromString (toks.getD 0 "")
    let version := toks.getD 2 ""
    match parseTarget (toks.getD 1 "") with
    | .error e => .err e
    | .ok (uri, qs) => .ok ⟨method, uri, version, headers, qs⟩

/-- `Status` from `src/server/response.rs`. -/
structure Status where
  code : Nat
  message : String
  deriving DecidableEq, Repr

/-- `Status::ok`. -/
def Status.ok : Status := ⟨200, "OK"⟩

/-- `Status::created`. -/
def Status.created : Status := ⟨201, "Created"⟩

/-- `Status::bad_request`. -/
def Status.bad_request : Status := ⟨400, "Bad Request"⟩

/-- `Status::un_athorized` (sic, name as in the source). -/
def Status.un_athorized : Status := ⟨401, "Unauthorized"⟩

/-- `Status::payment_required`. -/
def Status.payment_required : Status := ⟨402, "Payment Required"⟩

/-- `Status::forbidden`. -/
def Status.forbidden : Status := ⟨403, "Forbidden"⟩

/-- `Status::not_found`. -/
def Status.not_found : Status := ⟨404, "Not Found"⟩

/-- `Status::method_not_allowed`. -/
def Status.method_not_allowed : Status := ⟨405, "Method Not Allowed"⟩

/-- `Status::not_acceptable`. -/
def Status.not_acceptable : Status := ⟨406, "Not Acceptable"⟩

/-- `Status::un_processable_entity`. -/
def Status.un_processable_entity : Status := ⟨422, "Unprocessable Entity"⟩

/-- `Status::internal_server_error`. -/
def Status.internal_server_error : Status := ⟨500, "Internal Server Error"⟩

/-- `Status::from(usize)`: the status registry.  The Rust `match` on integer
literals is written as the equivalent chain of equality tests; every code
outside the table falls back to `Status::ok()`. -/
def Status.fromCode (status : Nat) : Status :=
  if status = 200 then Status.ok
  else if status = 201 then Status.created
  else if status = 400 then Status.bad_request
  else if status = 401 then Status.un_athorized
  else if status = 402 then Status.payment_required
  else if status = 403 then Status.forbidden
  else if status = 404 then Status.not_found
  else if status = 405 then Status.method_not_allowed
  else if status = 406 then Status.not_acceptable
  else if status = 422 then Status.un_processable_entity
  else if status = 500 then Status.internal_server_error
  else Status.ok

/-- Modelled from the spec: `ServerDataSchema`, the route-entry shape of the
external configuration module `fake_rest::server_config`, whose source file is
not among the reviewed sources.  Fields follow spec section 3 "RouteEntry" and
the field accesses performed by `Response::new`. -/
structure ServerDataSchema where
  path : String
  method : Method
  headers : Option (List String)
  queries : Option (List String)
  status_code : Option Nat
  result_type : String
  result : String
  result_headers : Option (List String)
  deriving DecidableEq, Repr

/-- Modelled from the spec: the slice of `fake_rest::server_config::Server`
consumed by `Response::new` — the ordered route table `data`. -/
structure Server where
  data : List ServerDataSchema
  deriving DecidableEq, Repr

/-- Modelled from the spec: the effect interface used by `Response::new`.
`isFile` models `Path::is_file`; `readToString` models
`tokio::fs::read_to_string` (`none` = propagated I/O error); `readBytes`
models `tokio::fs::read`; `getMimeType` models
`ContentType::get_mime_Type` (spec section 4.5, a pure extension-to-MIME
lookup whose source file is not among the reviewed sources). -/
structure Env where
  isFile : String → Bool
  readToString : String → Option String
  readBytes : String → Option (List UInt8)
  getMimeType : String → String

/-- Unix semantics of Rust `Path::file_name` on a path built from a `String`:
the last non-empty, non-`.` component, or `none` when there is no such
component or it is `..`. -/
def fileName (p : String) : Option String :=
  match (((splitChar '/' p.data).map String.mk).filter
      (fun s => s != "" && s != ".")).getLast? with
  | none => none
  | some s => if s = ".." then none else some s

/-- Split a character list at its last `.`: `some (stem, ext)` when a dot
occurs, `none` otherwise. -/
def extSplit : List Char → Option (List Char × List Char)
  | [] => none
  | c :: rest =>
    match extSplit rest with
    | some (s, e) => some (c :: s, e)
    | none => if c = '.' then some ([], rest) else none

/-- Rust `Path::extension`: the portion of the file name after its last `.`,
except that a file name with no dot, or whose only dot is leading (as in
`.gitignore`), has no extension. -/
def extension (p : String) : Option String :=
  match fileName p with
  | none => none
  | some fn =>
    match extSplit fn.data with
    | none => none
    | some (stem, e) => if stem = [] then none else some (String.mk e)

/-- The route-matching loop of `Response::new` (`response.rs` lines 85-91):
first entry whose `path` equals the request uri, scanning in table order. -/
def matchRoute : List ServerDataSchema → String → Option ServerDataSchema
  | [], _ => none
  | item :: rest, uri => if item.path = uri then some item else matchRoute rest uri

/-- The required-header / required-query loops of `Response::new` (lines
111-127): `true` when some declared name is absent from the request map. -/
def requiredMissing (declared : Option (List String)) (m : List (String × String)) : Bool :=
  match declared with
  | none => false
  | some names => names.any (fun n => !containsKey m n)

/-- The status-selection step of `Response::new` (lines 130-135). -/
def statusOf (sd : ServerDataSchema) : Status :=
  match sd.status_code with
  | some c => Status.fromCode c
  | none => Status.ok

/-- `Response` from `src/server/response.rs`. -/
structure Response where
  status : Status
  headers : List (String × String)
  body : List UInt8
  deriving DecidableEq, Repr

/-- Outcome of `Response::new`.  `panic` marks the `unwrap` panic reachable in
the `dl` branch when `Path::file_name` returns `None`. -/
inductive RespResult where
  | ok (r : Response)
  | err (e : AppError)
  | panic
  deriving DecidableEq, Repr

/-- Outcome of the body-resolution `match` of `Response::new` (lines
138-173): the body bytes together with the headers inserted by the `dl`
branch before the common header assembly. -/
inductive BodyOut where
  | ok (hs : List (String × String)) (body : List UInt8)
  | err (e : AppError)
  | panic
  deriving Repr

/-- Body resolution of `Response::new` (lines 138-173), branching on
`result_type`.  The Rust `match` on string literals is the equivalent chain of
equality tests; an unrecognized tag yields an empty body.  In the `dl` branch
`path.file_name().unwrap()` panics when `file_name` is `None`; `to_str()`
cannot fail because the path was built from a Rust `String`. -/
def resolveBody (env : Env) (sd : ServerDataSchema) : BodyOut :=
  if sd.result_type = "direct" then .ok [] (utf8Bytes sd.result)
  else if sd.result_type = "file" then
    if !env.isFile sd.result then .err .ConfigFileOpenError
    else
      match env.readToString sd.result with
      | some s => .ok [] (utf8Bytes s)
      | none => .err .IoError
  else if sd.result_type = "dl" then
    if !env.isFile sd.result then .err .ConfigFileOpenError
    else
      match fileName sd.result with
      | none => .panic
      | some fn =>
        let mime :=
          match extension sd.result with
          | some e => env.getMimeType e
          | none => ""
        let hs := insertKV (insertKV (insertKV [] "Content-Type" mime)
          "Accept-Ranges" "None") "Content-Disposition" ("attachment; filename=" ++ fn)
        match env.readBytes sd.result with
        | some bs => .ok hs bs
        | none => .err .IoError
  else .ok [] []

/-- The `result_headers` loop of `Response::new` (lines 181-195): each item is
split on `:`; the first segment (trimmed) is the key and the second segment
(trimmed) the value; a missing second segment is a `ConfigParsingError`.
(`split` never yields an empty list in Rust, so the key is always present.) -/
def applyResultHeaders : List String → List (String × String) →
    Except AppError (List (String × String))
  | [], hs => .ok hs
  | item :: rest, hs =>
    match rustSplit item ':' with
    | k :: v :: _ => applyResultHeaders rest (insertKV hs (rustTrim k) (rustTrim v))
    | _ => .error .ConfigParsingError

/-- The `Host` passthrough of `Response::new` (lines 178-180): when the
request carried a `Host` header, copy it into the response headers. -/
def hostStep (request : Request) (hs1 : List (String × String)) : List (String × String) :=
  match lookupKV request.headers "Host" with
  | some host => insertKV hs1 "Host" host
  | none => hs1

/-- The common header-assembly tail of `Response::new` (lines 176-198):
insert `Content-Length`, copy a `Host` request header when present, then apply
the config-declared `result_headers`. -/
def finishResponse (request : Request) (sd : ServerDataSchema) (status : Status)
    (hs : List (String × String)) (body : List UInt8) : RespResult :=
  let hs2 := hostStep request (insertKV hs "Content-Length" (Nat.repr body.length))
  match sd.result_headers with
  | none => .ok ⟨status, hs2, body⟩
  | some items =>
    match applyResultHeaders items hs2 with
    | .ok hs3 => .ok ⟨status, hs3, body⟩
    | .error e => .err e

/-- `Response::new` from `src/server/response.rs`: match the route table,
check the method, check required headers and query strings, select the
status, resolve the body, assemble the headers. -/
def Response.new (env : Env) (request : Request) (server : Server) : RespResult :=
  match matchRoute server.data request.uri with
  | none => .ok ⟨Status.not_found, [], utf8Bytes "Path not found"⟩
  | some sd =>
    if request.method ≠ sd.method then
      .ok ⟨Status.method_not_allowed, [], utf8Bytes "Method Not Allowed"⟩
    else if requiredMissing sd.headers request.headers then
      .err .ConfigRequiredHeadersError
    else if requiredMissing sd.queries request.query_strings then
      .err .ConfigRequiredQueriesError
    else
      match resolveBody env sd with
      | .panic => .panic
      | .err e => .err e
      | .ok hs body => finishResponse request sd (statusOf sd) hs body

/-- The trimmed key a `result_headers` item declares (first `:`-segment,
trimmed), used to state which response-header keys a route's config can
overwrite. -/
def keyOfItem (item : String) : String :=
  match rustSplit item ':' with
  | k :: _ => rustTrim k
  | [] => ""

/-- `true` when the route entry's `result_headers` never declare the key `k`,
so the header-assembly tail cannot overwrite `k`. -/
def avoidsKey (rh : Option (List String)) (k : String) : Bool :=
  match rh with
  | none => true
  | some items => items.all (fun item => keyOfItem item != k)

/-- Header lookup through a `RespResult`: `some` of the lookup when the
resolver returned a response, `none` when it failed or panicked. -/
def respHeader (rr : RespResult) (k : String) : Option (Option String) :=
  match rr with
  | .ok r => some (lookupKV r.headers k)
  | _ => none

deriving instance DecidableEq for Except

/- Concrete fixtures used by witnesses and counterexamples. -/

/-- An environment in which no path is a regular file. -/
def env0 : Env := ⟨fun _ => false, fun _ => none, fun _ => none, fun _ => ""⟩

/-- An environment in which exactly `a.txt` is a regular file holding the two
bytes `hi`, and every extension maps to `text/plain`. -/
def env1 : Env :=
  ⟨fun p => p == "a.txt", fun _ => some "hi", fun _ => some [104, 105], fun _ => "text/plain"⟩

/-- A header-less, query-less `GET` request for the given uri. -/
def reqFor (u : String) : Request := ⟨.GET, u, "HTTP/1.1", [], []⟩

/-- Route entry whose config declares its own `Content-Length`. -/
def entryCL : ServerDataSchema :=
  ⟨"/p", .GET, none, none, none, "direct", "hi", some ["Content-Length: 999"]⟩

/-- Route entry whose config header value contains a second `:`. -/
def entryLoc : ServerDataSchema :=
  ⟨"/l", .GET, none, none, none, "direct", "x", some ["Location: http://x"]⟩

/-- `direct` route entry whose config declares `Content-Disposition`. -/
def entryCD : ServerDataSchema :=
  ⟨"/c", .GET, none, none, none, "direct", "x", some ["Content-Disposition: inline"]⟩

/-- `dl` route entry whose config overrides `Content-Disposition`. -/
def entryDlOverride : ServerDataSchema :=
  ⟨"/d", .GET, none, none, none, "dl", "a.txt", some ["Content-Disposition: inline"]⟩

/-- Plain `dl` route entry with no config headers. -/
def entryDlPlain : ServerDataSchema :=
  ⟨"/d", .GET, none, none, none, "dl", "a.txt", none⟩

/-- `POST` route entry that also requires a header. -/
def entryHdrPost : ServerDataSchema :=
  ⟨"/h", .POST, some ["X-Required"], none, none, "direct", "x", none⟩

/-- Route entry requiring one header and one query parameter. -/
def entryPre : ServerDataSchema :=
  ⟨"/q", .GET, some ["H1"], some ["id"], none, "direct", "x", none⟩

/-- First of two route entries sharing the path `/x`. -/
def entryDup1 : ServerDataSchema :=
  ⟨"/x", .GET, none, none, none, "direct", "first", none⟩

/-- Second of two route entries sharing the path `/x`, with a different
method and required headers. -/
def entryDup2 : ServerDataSchema :=
  ⟨"/x", .POST, some ["X-Other"], none, some 201, "direct", "second", none⟩

/-- `direct` route entry whose config declares a `Content-Type`. -/
def entryCT : ServerDataSchema :=
  ⟨"/m", .GET, none, none, none, "direct", "x", some ["Content-Type: text/plain"]⟩

/-- The response `Response::new` produces for `entryDlPlain` under `env1`. -/
def rDl : Response :=
  ⟨Status.ok,
   [("Content-Length", "2"), ("Content-Disposition", "attachment; filename=a.txt"),
    ("Accept-Ranges", "None"), ("Content-Type", "text/plain")],
   [104, 105]⟩

/- Lemmas about the association-list map model. -/

theorem lookupKV_insertKV_self (m : List (String × String)) (k v : String) :
    lookupKV (insertKV m k v) k = some v := by
  simp [insertKV, lookupKV]

theorem lookupKV_filter_ne (m : List (String × String)) {k k' : String} (h : k' ≠ k) :
    lookupKV (m.filter (fun p => p.1 != k')) k = lookupKV m k := by
  induction m with
  | nil => rfl
  | cons p rest ih =>
    simp only [List.filter_cons]
    by_cases hp : p.1 = k'
    · have hb : (p.1 != k') = false := by simp [hp]
      rw [hb]
      simp only [Bool.false_eq_true, if_false, lookupKV]
      rw [if_neg (by rw [hp]; exact h)]
      exact ih
    · have hb : (p.1 != k') = true := by simp [hp]
      rw [hb]
      simp only [if_true, lookupKV]
      by_cases hk : p.1 = k
      · rw [if_pos hk, if_pos hk]
      · rw [if_neg hk, if_neg hk]; exact ih

theorem lookupKV_insertKV_ne (m : List (String × String)) {k k' : String} (v : String)
    (h : k' ≠ k) : lookupKV (insertKV m k' v) k = lookupKV m k := by
  simp only [insertKV, lookupKV, if_neg h]
  exact lookupKV_filter_ne m h

/- Lemmas about route matching. -/

theorem matchRoute_mem {l : List ServerDataSchema} {uri : String} {sd : ServerDataSchema}
    (h : matchRoute l uri = some sd) : sd ∈ l := by
  induction l with
  | nil => simp [matchRoute] at h
  | cons item rest ih =>
    by_cases hp : item.path = uri
    · simp only [matchRoute, if_pos hp, Option.some.injEq] at h
      exact h ▸ List.mem_cons_self item rest
    · simp only [matchRoute, if_neg hp] at h
      exact List.mem_cons_of_mem _ (ih h)

theorem matchRoute_eq_none {l : List ServerDataSchema} {uri : String}
    (h : ∀ x ∈ l, x.path ≠ uri) : matchRoute l uri = none := by
  induction l with
  | nil => rfl
  | cons item rest ih =>
    simp only [matchRoute, if_neg (h item (List.mem_cons_self item rest))]
    exact ih (fun x hx => h x (List.mem_cons_of_mem _ hx))

theorem matchRoute_first {pre rest : List ServerDataSchema} {e1 : ServerDataSchema}
    {uri : String} (hpre : ∀ x ∈ pre, x.path ≠ uri) (he1 : e1.path = uri) :
    matchRoute (pre ++ e1 :: rest) uri = some e1 := by
  induction pre with
  | nil => simp [matchRoute, he1]
  | cons c pre' ih =>
    simp only [List.cons_append, matchRoute,
      if_neg (hpre c (List.mem_cons_self c pre'))]
    exact ih (fun x hx => hpre x (List.mem_cons_of_mem _ hx))

/- Lemmas about `splitChar`. -/

theorem splitChar_ne_nil (d : Char) (l : List Char) : splitChar d l ≠ [] := by
  induction l with
  | nil => simp [splitChar]
  | cons c rest ih =>
    by_cases hc : c = d
    · simp [splitChar, hc]
    · simp only [splitChar, if_neg hc]
      cases h : splitChar d rest with
      | nil => simp
      | cons s ss => simp

theorem splitChar_of_not_mem {d : Char} {l : List Char} (h : d ∉ l) : splitChar d l = [l] := by
  induction l with
  | nil => rfl
  | cons c rest ih =>
    have hc : c ≠ d := fun e => h (e ▸ List.mem_cons_self c rest)
    simp only [splitChar, if_neg hc]
    rw [ih (fun hm => h (List.mem_cons_of_mem _ hm))]

theorem splitChar_append {d : Char} {pre rest : List Char} (h : d ∉ pre) :
    splitChar d (pre ++ d :: rest) = pre :: splitChar d rest := by
  induction pre with
  | nil => simp [splitChar]
  | cons c pre' ih =>
    have hc : c ≠ d := fun e => h (e ▸ List.mem_cons_self c pre')
    simp only [List.cons_append, splitChar, if_neg hc]
    rw [show pre'.append (d :: rest) = pre' ++ d :: rest from rfl,
      ih (fun hm => h (List.mem_cons_of_mem _ hm))]

/- Lemmas about the `result_headers` application loop. -/

theorem applyResultHeaders_err {items : List String} {hs : List (String × String)}
    {e : AppError} (h : applyResultHeaders items hs = .error e) :
    e = .ConfigParsingError := by
  induction items generalizing hs with
  | nil => simp [applyResultHeaders] at h
  | cons item rest ih =>
    simp only [applyResultHeaders] at h
    cases hsplit : rustSplit item ':' with
    | nil => rw [hsplit] at h; simp at h; exact h.symm
    | cons k tail =>
      cases tail with
      | nil => rw [hsplit] at h; simp at h; exact h.symm
      | cons v tail' => rw [hsplit] at h; exact ih h

theorem applyResultHeaders_preserve {items : List String} {hs hs' : List (String × String)}
    {k : String} (hav : ∀ item ∈ items, keyOfItem item ≠ k)
    (h : applyResultHeaders items hs = .ok hs') :
    lookupKV hs' k = lookupKV hs k := by
  induction items generalizing hs with
  | nil => simp only [applyResultHeaders, Except.ok.injEq] at h; rw [h]
  | cons item rest ih =>
    simp only [applyResultHeaders] at h
    cases hsplit : rustSplit item ':' with
    | nil => rw [hsplit] at h; simp at h
    | cons k0 tail =>
      cases tail with
      | nil => rw [hsplit] at h; simp at h
      | cons v0 tail' =>
        rw [hsplit] at h
        have hkey : keyOfItem item = rustTrim k0 := by
          simp [keyOfItem, hsplit]
        have hne : rustTrim k0 ≠ k := hkey ▸ hav item (List.mem_cons_self item rest)
        rw [ih (fun x hx => hav x (List.mem_cons_of_mem _ hx)) h]
        exact lookupKV_insertKV_ne hs _ hne

theorem applyResultHeaders_last {pre post : List String} {item k v : String}
    {tail : List String} {hs hs' : List (String × String)}
    (hsplit : rustSplit item ':' = k :: v :: tail)
    (hpost : ∀ x ∈ post, keyOfItem x ≠ rustTrim k)
    (h : applyResultHeaders (pre ++ item :: post) hs = .ok hs') :
    lookupKV hs' (rustTrim k) = some (rustTrim v) := by
  induction pre generalizing hs with
  | nil =>
    simp only [List.nil_append, applyResultHeaders] at h
    rw [hsplit] at h
    rw [applyResultHeaders_preserve hpost h]
    exact lookupKV_insertKV_self _ _ _
  | cons p pre' ih =>
    simp only [List.cons_append, applyResultHeaders] at h
    cases hps : rustSplit p ':' with
    | nil => rw [hps] at h; simp at h
    | cons k0 tail0 =>
      cases tail0 with
      | nil => rw [hps] at h; simp at h
      | cons v0 tail0' => rw [hps] at h; exact ih h

/- Lemmas about the header-assembly tail. -/

theorem lookupKV_hostStep_ne (request : Request) (hs1 : List (String × String))
    {k : String} (h : k ≠ "Host") :
    lookupKV (hostStep request hs1) k = lookupKV hs1 k := by
  unfold hostStep
  cases lookupKV request.headers "Host" with
  | none => rfl
  | some host => exact lookupKV_insertKV_ne hs1 host (Ne.symm h)

theorem finishResponse_err {request : Request} {sd : ServerDataSchema} {status : Status}
    {hs : List (String × String)} {body : List UInt8} {e : AppError}
    (h : finishResponse request sd status hs body = .err e) :
    e = .ConfigParsingError := by
  simp only [finishResponse] at h
  split at h
  · simp at h
  · split at h
    · simp at h
    · rename_i e' happ
      simp only [RespResult.err.injEq] at h
      exact h ▸ applyResultHeaders_err happ

theorem finishResponse_ne_panic (request : Request) (sd : ServerDataSchema)
    (status : Status) (hs : List (String × String)) (body : List UInt8) :
    finishResponse request sd status hs body ≠ .panic := by
  simp only [finishResponse]
  split
  · simp
  · split <;> simp

theorem avoidsKey_forall {rh : Option (List String)} {k : String} {items : List String}
    (hav : avoidsKey rh k = true) (hrh : rh = some items) :
    ∀ item ∈ items, keyOfItem item ≠ k := by
  subst hrh
  simp only [avoidsKey, List.all_eq_true] at hav
  intro item him
  simpa using hav item him

theorem finishResponse_ok_shape {request : Request} {sd : ServerDataSchema}
    {status : Status} {hs : List (String × String)} {body : List UInt8} {r : Response}
    (h : finishResponse request sd status hs body = .ok r) :
    r.status = status ∧ r.body = body := by
  simp only [finishResponse] at h
  split at h
  · simp only [RespResult.ok.injEq] at h
    exact ⟨(h ▸ rfl : r.status = status), (h ▸ rfl : r.body = body)⟩
  · split at h
    · simp only [RespResult.ok.injEq] at h
      exact ⟨(h ▸ rfl : r.status = status), (h ▸ rfl : r.body = body)⟩
    · simp at h

theorem finishResponse_content_length {request : Request} {sd : ServerDataSchema}
    {status : Status} {hs : List (String × String)} {body : List UInt8} {r : Response}
    (hav : avoidsKey sd.result_headers "Content-Length" = true)
    (h : finishResponse request sd status hs body = .ok r) :
    lookupKV r.headers "Content-Length" = some (Nat.repr body.length) := by
  simp only [finishResponse] at h
  split at h
  · simp only [RespResult.ok.injEq] at h
    have hhd : r.headers =
        hostStep request (insertKV hs "Content-Length" (Nat.repr body.length)) :=
      (h ▸ rfl : r.headers = _)
    rw [hhd, lookupKV_hostStep_ne _ _ (by decide), lookupKV_insertKV_self]
  · rename_i items hrh
    split at h
    · rename_i hs3 happ
      simp only [RespResult.ok.injEq] at h
      have hhd : r.headers = hs3 := (h ▸ rfl : r.headers = hs3)
      rw [hhd, applyResultHeaders_preserve (avoidsKey_forall hav hrh) happ,
        lookupKV_hostStep_ne _ _ (by decide), lookupKV_insertKV_self]
    · simp at h

theorem finishResponse_preserve {request : Request} {sd : ServerDataSchema}
    {status : Status} {hs : List (String × String)} {body : List UInt8} {r : Response}
    {k : String} (hCL : k ≠ "Content-Length") (hHost : k ≠ "Host")
    (hav : avoidsKey sd.result_headers k = true)
    (h : finishResponse request sd status hs body = .ok r) :
    lookupKV r.headers k = lookupKV hs k := by
  simp only [finishResponse] at h
  split at h
  · simp only [RespResult.ok.injEq] at h
    have hhd : r.headers =
        hostStep request (insertKV hs "Content-Length" (Nat.repr body.length)) :=
      (h ▸ rfl : r.headers = _)
    rw [hhd, lookupKV_hostStep_ne _ _ hHost, lookupKV_insertKV_ne _ _ (Ne.symm hCL)]
  · rename_i items hrh
    split at h
    · rename_i hs3 happ
      simp only [RespResult.ok.injEq] at h
      have hhd : r.headers = hs3 := (h ▸ rfl : r.headers = hs3)
      rw [hhd, applyResultHeaders_preserve (avoidsKey_forall hav hrh) happ,
        lookupKV_hostStep_ne _ _ hHost, lookupKV_insertKV_ne _ _ (Ne.symm hCL)]
    · simp at h

/- Lemmas about body resolution. -/

theorem resolveBody_direct {env : Env} {sd : ServerDataSchema}
    (h : sd.result_type = "direct") :
    resolveBody env sd = .ok [] (utf8Bytes sd.result) := by
  simp [resolveBody, h]

theorem resolveBody_dl {env : Env} {sd : ServerDataSchema} {fn : String}
    {bs : List UInt8} (h3 : sd.result_type = "dl")
    (hf : env.isFile sd.result = true) (hfn : fileName sd.result = some fn)
    (hrb : env.readBytes sd.result = some bs) :
    resolveBody env sd = .ok
      (insertKV (insertKV (insertKV [] "Content-Type"
          (match extension sd.result with
           | some e => env.getMimeType e
           | none => ""))
        "Accept-Ranges" "None")
        "Content-Disposition" ("attachment; filename=" ++ fn)) bs := by
  simp [resolveBody, h3, hf, hfn, hrb]

theorem resolveBody_ne_panic {env : Env} {sd : ServerDataSchema}
    (h : sd.result_type = "dl" → env.isFile sd.result = true →
      fileName sd.result ≠ none) :
    resolveBody env sd ≠ .panic := by
  unfold resolveBody
  by_cases h1 : sd.result_type = "direct"
  · simp [h1]
  · by_cases h2 : sd.result_type = "file"
    · simp only [if_neg h1, if_pos h2]
      cases hf : env.isFile sd.result with
      | false => simp
      | true =>
        simp only [Bool.not_true, Bool.false_eq_true, if_false]
        cases env.readToString sd.result <;> simp
    · by_cases h3 : sd.result_type = "dl"
      · simp only [if_neg h1, if_neg h2, if_pos h3]
        cases hf : env.isFile sd.result with
        | false => simp
        | true =>
          simp only [Bool.not_true, Bool.false_eq_true, if_false]
          cases hfn : fileName sd.result with
          | none => exact absurd hfn (h h3 hf)
          | some fn =>
            cases env.readBytes sd.result <;> simp
      · simp [h1, h2, h3]

theorem resolveBody_err {env : Env} {sd : ServerDataSchema} {e : AppError}
    (h : resolveBody env sd = .err e) :
    e = .ConfigFileOpenError ∨ e = .IoError := by
  unfold resolveBody at h
  by_cases h1 : sd.result_type = "direct"
  · rw [if_pos h1] at h; simp at h
  · rw [if_neg h1] at h
    by_cases h2 : sd.result_type = "file"
    · rw [if_pos h2] at h
      cases hf : env.isFile sd.result with
      | false => rw [hf] at h; simp at h; exact Or.inl h.symm
      | true =>
        rw [hf] at h
        simp only [Bool.not_true, Bool.false_eq_true, if_false] at h
        cases hrs : env.readToString sd.result with
        | none => rw [hrs] at h; simp at h; exact Or.inr h.symm
        | some s => rw [hrs] at h; simp at h
    · rw [if_neg h2] at h
      by_cases h3 : sd.result_type = "dl"
      · rw [if_pos h3] at h
        cases hf : env.isFile sd.result with
        | false => rw [hf] at h; simp at h; exact Or.inl h.symm
        | true =>
          rw [hf] at h
          simp only [Bool.not_true, Bool.false_eq_true, if_false] at h
          cases hfn : fileName sd.result with
          | none => rw [hfn] at h; simp at h
          | some fn =>
            rw [hfn] at h
            cases hrb : env.readBytes sd.result with
            | none => rw [hrb] at h; simp at h; exact Or.inr h.symm
            | some bs => rw [hrb] at h; simp at h
      · rw [if_neg h3] at h; simp at h

/- Bridges between the loop conditions of `Response::new` and their
declarative reformulations. -/

theorem requiredMissing_of_absent {names : List String} {m : List (String × String)}
    {n : String} (hn : n ∈ names) (hc : containsKey m n = false) :
    requiredMissing (some names) m = true := by
  simp only [requiredMissing, List.any_eq_true]
  exact ⟨n, hn, by simp [hc]⟩

theorem requiredMissing_of_present {names : List String} {m : List (String × String)}
    (h : ∀ n ∈ names, containsKey m n = true) :
    requiredMissing (some names) m = false := by
  simp only [requiredMissing]
  rw [List.any_eq_false]
  intro n hn
  simp [h n hn]

theorem requiredMissing_false {declared : Option (List String)}
    {m : List (String × String)}
    (h : ∀ names, declared = some names → ∀ n ∈ names, containsKey m n = true) :
    requiredMissing declared m = false := by
  cases hd : declared with
  | none => rfl
  | some names => exact requiredMissing_of_present (h names hd)

/- Branch lemmas for `Response::new`. -/

theorem new_of_match_none {env : Env} {request : Request} {server : Server}
    (hm : matchRoute server.data request.uri = none) :
    Response.new env request server =
      .ok ⟨Status.not_found, [], utf8Bytes "Path not found"⟩ := by
  simp [Response.new, hm]

theorem new_of_method_ne {env : Env} {request : Request} {server : Server}
    {sd : ServerDataSchema} (hm : matchRoute server.data request.uri = some sd)
    (hne : request.method ≠ sd.method) :
    Response.new env request server =
      .ok ⟨Status.method_not_allowed, [], utf8Bytes "Method Not Allowed"⟩ := by
  simp [Response.new, hm, hne]

theorem new_of_headers_missing {env : Env} {request : Request} {server : Server}
    {sd : ServerDataSchema} (hm : matchRoute server.data request.uri = some sd)
    (hmeq : request.method = sd.method)
    (hh : requiredMissing sd.headers request.headers = true) :
    Response.new env request server = .err .ConfigRequiredHeadersError := by
  simp [Response.new, hm, hmeq, hh]

theorem new_of_queries_missing {env : Env} {request : Request} {server : Server}
    {sd : ServerDataSchema} (hm : matchRoute server.data request.uri = some sd)
    (hmeq : request.method = sd.method)
    (hh : requiredMissing sd.headers request.headers = false)
    (hq : requiredMissing sd.queries request.query_strings = true) :
    Response.new env request server = .err .ConfigRequiredQueriesError := by
  simp [Response.new, hm, hmeq, hh, hq]

theorem new_resolved {env : Env} {request : Request} {server : Server}
    {sd : ServerDataSchema} (hm : matchRoute server.data request.uri = some sd)
    (hmeq : request.method = sd.method)
    (hh : requiredMissing sd.headers request.headers = false)
    (hq : requiredMissing sd.queries request.query_strings = false) :
    Response.new env request server =
      match resolveBody env sd with
      | .panic => .panic
      | .err e => .err e
      | .ok hs body => finishResponse request sd (statusOf sd) hs body := by
  simp [Response.new, hm, hmeq, hh, hq]

/- Lemmas about request-target splitting. -/

theorem parseTarget_no_query {t : String} (h : '?' ∉ t.data) :
    parseTarget t = .ok (t, []) := by
  unfold parseTarget rustSplit
  rw [splitChar_of_not_mem h]
  simp

theorem parseTarget_one {pre q : List Char} (hp : '?' ∉ pre) (hq : '?' ∉ q) :
    parseTarget (String.mk (pre ++ '?' :: q)) =
      (parseQueries (String.mk q)).map (fun qs => (String.mk pre, qs)) := by
  unfold parseTarget rustSplit
  rw [show (String.mk (pre ++ '?' :: q)).data = pre ++ '?' :: q from rfl,
    splitChar_append hp, splitChar_of_not_mem hq]
  simp

theorem parseTarget_two {pre q rest : List Char} (hp : '?' ∉ pre) (hq : '?' ∉ q) :
    parseTarget (String.mk (pre ++ '?' :: (q ++ '?' :: rest))) =
      (parseQueries (String.mk q)).map (fun qs => (String.mk pre, qs)) := by
  unfold parseTarget rustSplit
  rw [show (String.mk (pre ++ '?' :: (q ++ '?' :: rest))).data =
      pre ++ '?' :: (q ++ '?' :: rest) from rfl,
    splitChar_append hp, splitChar_append hq]
  simp

/- Claim theorems. -/

/-- C3: when the request uri matches a route entry (the first one, per the
scan order) but the request method differs from that entry's method, the
resolver returns the fixed 405 response with body "Method Not Allowed" and an
empty header map; this happens before any precondition check, so no
required-header or required-query error can be raised, whatever required
headers or queries the entry declares. -/
theorem c3_method_mismatch_405 (env : Env) (request : Request) (server : Server)
    (sd : ServerDataSchema) (hm : matchRoute server.data request.uri = some sd)
    (hne : request.method ≠ sd.method) :
    Response.new env request server =
      .ok ⟨Status.method_not_allowed, [], utf8Bytes "Method Not Allowed"⟩ :=
  new_of_method_ne hm hne

/-- C3 witness: a GET request against a POST-only route that also declares a
required header (absent from the request) still gets the 405 response, not a
required-headers error. -/
theorem c3_witness :
    Response.new env0 (reqFor "/h") ⟨[entryHdrPost]⟩ =
      .ok ⟨Status.method_not_allowed, [], utf8Bytes "Method Not Allowed"⟩ :=
  c3_method_mismatch_405 env0 (reqFor "/h") ⟨[entryHdrPost]⟩ entryHdrPost
    (by decide) (by decide)

/-- C4: route matching is first-match-wins on exact path equality — whenever
the table splits as `pre ++ e1 :: mid ++ e2 :: post` with `e1` and `e2` both
matching the request uri and nothing in `pre` matching it, the scan selects
`e1`, regardless of any difference between `e1` and `e2`; and when no entry's
path equals the uri the resolver returns the 404 response with body
"Path not found" and an empty header map. -/
theorem c4_first_match_and_404 :
    (∀ (request : Request) (server : Server) (pre mid post : List ServerDataSchema)
      (e1 e2 : ServerDataSchema),
      server.data = pre ++ e1 :: (mid ++ e2 :: post) →
      (∀ x ∈ pre, x.path ≠ request.uri) →
      e1.path = request.uri → e2.path = request.uri →
      matchRoute server.data request.uri = some e1) ∧
    (∀ (env : Env) (request : Request) (server : Server),
      (∀ x ∈ server.data, x.path ≠ request.uri) →
      Response.new env request server =
        .ok ⟨Status.not_found, [], utf8Bytes "Path not found"⟩) := by
  constructor
  · intro request server pre mid post e1 e2 hdata hpre he1 he2
    rw [hdata]
    exact matchRoute_first hpre he1
  · intro env request server hall
    exact new_of_match_none (matchRoute_eq_none hall)

/-- C4 witness: with two entries sharing the path `/x` (different methods,
required headers and status codes), the first is selected; and a uri matching
no entry yields the 404 response. -/
theorem c4_witness :
    matchRoute (Server.mk [entryDup1, entryDup2]).data (reqFor "/x").uri =
      some entryDup1 ∧
    Response.new env0 (reqFor "/nope") ⟨[entryDup1, entryDup2]⟩ =
      .ok ⟨Status.not_found, [], utf8Bytes "Path not found"⟩ :=
  ⟨c4_first_match_and_404.1 (reqFor "/x") ⟨[entryDup1, entryDup2]⟩ [] [] []
      entryDup1 entryDup2 rfl (by decide) (by decide) (by decide),
   c4_first_match_and_404.2 env0 (reqFor "/nope") ⟨[entryDup1, entryDup2]⟩ (by decide)⟩

/-- C2: `Response::new` never panics — under the filesystem fact that a path
passing the `is_file` check has a final path component (on a real filesystem a
path ending in `..`, or empty, never names a regular file, so
`Path::file_name` is `Some`; `to_str` cannot fail because the path comes from
a Rust `String`), the resolver returns only a response or a propagated error,
and in particular the `dl` branch cannot reach its `unwrap` panic. -/
theorem c2_never_panics (env : Env) (request : Request) (server : Server)
    (hfs : ∀ sd ∈ server.data, sd.result_type = "dl" →
      env.isFile sd.result = true → fileName sd.result ≠ none) :
    Response.new env request server ≠ .panic := by
  cases hm : matchRoute server.data request.uri with
  | none => rw [new_of_match_none hm]; simp
  | some sd =>
    by_cases hne : request.method ≠ sd.method
    · rw [new_of_method_ne hm hne]; simp
    · have hmeq : request.method = sd.method := not_not.mp hne
      cases hh : requiredMissing sd.headers request.headers with
      | true => rw [new_of_headers_missing hm hmeq hh]; simp
      | false =>
        cases hq : requiredMissing sd.queries request.query_strings with
        | true => rw [new_of_queries_missing hm hmeq hh hq]; simp
        | false =>
          rw [new_resolved hm hmeq hh hq]
          have hrb := resolveBody_ne_panic (hfs sd (matchRoute_mem hm))
          cases hr : resolveBody env sd with
          | panic => exact absurd hr hrb
          | err e => simp
          | ok hs body => exact finishResponse_ne_panic request sd (statusOf sd) hs body

/-- C2 witness: a concrete `dl` route over a one-file filesystem resolves
without panicking. -/
theorem c2_witness :
    Response.new env1 (reqFor "/d") ⟨[entryDlPlain]⟩ ≠ .panic :=
  c2_never_panics env1 (reqFor "/d") ⟨[entryDlPlain]⟩ (by decide)

/-- C10: the byte-level parsing loop of `Request::new` panics on a lone LF —
after the request line `GET / HTTP/1.1\r\n` has been consumed, a `\n` arriving
as the first byte of a header line leaves one byte in the buffer, and the
slice `buff[..buff.len() - 2]` underflows, so parsing panics instead of
returning a ParsingError; the same stream with a proper `\r\n` pair in place
of the lone `\n` terminates without panicking. -/
theorem c10_lone_lf_panics :
    Request.new ("GET / HTTP/1.1\r\n\n".data) = .panic ∧
    Request.new ("GET / HTTP/1.1\r\n\r\n".data) ≠ .panic := by
  constructor
  · decide
  · decide

/-- C8: for a matched route entry passing the method check — if the entry
declares required headers and some declared name is absent from the request
headers (case-sensitive), the resolver fails with ConfigRequiredHeadersError;
if the headers check passes, the entry declares required query names and some
name is absent from the request query strings, it fails with
ConfigRequiredQueriesError; and when every declared name is present neither
error is raised. -/
theorem c8_required_checks :
    (∀ (env : Env) (request : Request) (server : Server) (sd : ServerDataSchema)
      (names : List String) (n : String),
      matchRoute server.data request.uri = some sd →
      request.method = sd.method →
      sd.headers = some names → n ∈ names → containsKey request.headers n = false →
      Response.new env request server = .err .ConfigRequiredHeadersError) ∧
    (∀ (env : Env) (request : Request) (server : Server) (sd : ServerDataSchema)
      (qnames : List String) (q : String),
      matchRoute server.data request.uri = some sd →
      request.method = sd.method →
      (∀ names, sd.headers = some names → ∀ n ∈ names, containsKey request.headers n = true) →
      sd.queries = some qnames → q ∈ qnames →
      containsKey request.query_strings q = false →
      Response.new env request server = .err .ConfigRequiredQueriesError) ∧
    (∀ (env : Env) (request : Request) (server : Server) (sd : ServerDataSchema),
      matchRoute server.data request.uri = some sd →
      request.method = sd.method →
      (∀ names, sd.headers = some names → ∀ n ∈ names, containsKey request.headers n = true) →
      (∀ names, sd.queries = some names → ∀ n ∈ names, containsKey request.query_strings n = true) →
      Response.new env request server ≠ .err .ConfigRequiredHeadersError ∧
      Response.new env request server ≠ .err .ConfigRequiredQueriesError) := by
  refine ⟨?_, ?_, ?_⟩
  · intro env request server sd names n hm hmeq hhn hn hc
    exact new_of_headers_missing hm hmeq
      (by rw [hhn]; exact requiredMissing_of_absent hn hc)
  · intro env request server sd qnames q hm hmeq hpresent hqn hq hc
    exact new_of_queries_missing hm hmeq (requiredMissing_false hpresent)
      (by rw [hqn]; exact requiredMissing_of_absent hq hc)
  · intro env request server sd hm hmeq hhp hqp
    rw [new_resolved hm hmeq (requiredMissing_false hhp) (requiredMissing_false hqp)]
    cases hr : resolveBody env sd with
    | panic => exact ⟨by simp, by simp⟩
    | err e =>
      rcases resolveBody_err hr with he | he <;> subst he <;> exact ⟨by simp, by simp⟩
    | ok hs body =>
      constructor
      · intro hfe
        exact absurd (finishResponse_err hfe) (by decide)
      · intro hfe
        exact absurd (finishResponse_err hfe) (by decide)

/-- C8 witness: a matching GET request lacking the required header `H1` fails
with the required-headers error; with `H1` supplied but the query `id` still
missing it fails with the required-queries error; with both supplied neither
error is raised. -/
theorem c8_witness :
    Response.new env0 (reqFor "/q") ⟨[entryPre]⟩ = .err .ConfigRequiredHeadersError ∧
    Response.new env0 ⟨.GET, "/q", "HTTP/1.1", [("H1", "v")], []⟩ ⟨[entryPre]⟩ =
      .err .ConfigRequiredQueriesError ∧
    Response.new env0 ⟨.GET, "/q", "HTTP/1.1", [("H1", "v")], [("id", "7")]⟩ ⟨[entryPre]⟩ ≠
      .err .ConfigRequiredHeadersError ∧
    Response.new env0 ⟨.GET, "/q", "HTTP/1.1", [("H1", "v")], [("id", "7")]⟩ ⟨[entryPre]⟩ ≠
      .err .ConfigRequiredQueriesError := by
  refine ⟨?_, ?_, ?_⟩
  · exact c8_required_checks.1 env0 (reqFor "/q") ⟨[entryPre]⟩ entryPre ["H1"] "H1"
      (by decide) (by decide) rfl (by decide) (by decide)
  · exact c8_required_checks.2.1 env0 ⟨.GET, "/q", "HTTP/1.1", [("H1", "v")], []⟩
      ⟨[entryPre]⟩ entryPre ["id"] "id" (by decide) (by decide) (by decide) rfl
      (by decide) (by decide)
  · exact c8_required_checks.2.2 env0 ⟨.GET, "/q", "HTTP/1.1", [("H1", "v")], [("id", "7")]⟩
      ⟨[entryPre]⟩ entryPre (by decide) (by decide) (by decide) (by decide)

/-- C9: `Status::from` is the pure status registry — each code of the closed
set maps to its canonical reason phrase, every other code falls back to
200/"OK", and a route entry without a `status_code` also yields 200/"OK". -/
theorem c9_status_registry :
    Status.fromCode 200 = ⟨200, "OK"⟩ ∧
    Status.fromCode 201 = ⟨201, "Created"⟩ ∧
    Status.fromCode 400 = ⟨400, "Bad Request"⟩ ∧
    Status.fromCode 401 = ⟨401, "Unauthorized"⟩ ∧
    Status.fromCode 402 = ⟨402, "Payment Required"⟩ ∧
    Status.fromCode 403 = ⟨403, "Forbidden"⟩ ∧
    Status.fromCode 404 = ⟨404, "Not Found"⟩ ∧
    Status.fromCode 405 = ⟨405, "Method Not Allowed"⟩ ∧
    Status.fromCode 406 = ⟨406, "Not Acceptable"⟩ ∧
    Status.fromCode 422 = ⟨422, "Unprocessable Entity"⟩ ∧
    Status.fromCode 500 = ⟨500, "Internal Server Error"⟩ ∧
    (∀ c : Nat,
      c ∉ ([200, 201, 400, 401, 402, 403, 404, 405, 406, 422, 500] : List Nat) →
      Status.fromCode c = ⟨200, "OK"⟩) ∧
    (∀ sd : ServerDataSchema, sd.status_code = none → statusOf sd = ⟨200, "OK"⟩) := by
  refine ⟨by decide, by decide, by decide, by decide, by decide, by decide, by decide,
    by decide, by decide, by decide, by decide, ?_, ?_⟩
  · intro c hc
    simp only [List.mem_cons, List.not_mem_nil, or_false, not_or] at hc
    obtain ⟨h1, h2, h3, h4, h5, h6, h7, h8, h9, h10, h11⟩ := hc
    simp only [Status.fromCode, if_neg h1, if_neg h2, if_neg h3, if_neg h4, if_neg h5,
      if_neg h6, if_neg h7, if_neg h8, if_neg h9, if_neg h10, if_neg h11]
    rfl
  · intro sd h
    simp only [statusOf, h]
    rfl

/-- C9 witness: the out-of-table code 777 falls back to 200/"OK", and a route
entry with no `status_code` yields 200/"OK". -/
theorem c9_witness :
    Status.fromCode 777 = ⟨200, "OK"⟩ ∧ statusOf entryDup1 = ⟨200, "OK"⟩ := by
  obtain ⟨-, -, -, -, -, -, -, -, -, -, -, hfb, hdef⟩ := c9_status_registry
  exact ⟨hfb 777 (by decide), hdef entryDup1 rfl⟩

/-- C1 counterexample: the 404 no-match response carries an empty header map
(no Content-Length at all) although its body is 14 bytes; and on a matched
route whose config declares `Content-Length: 999`, the final header says 999
while the body is 2 bytes — so Content-Length is not present-and-accurate on
every return path. -/
theorem c1_counterexample :
    Response.new env0 (reqFor "/nope") ⟨[]⟩ =
      .ok ⟨Status.not_found, [], utf8Bytes "Path not found"⟩ ∧
    (utf8Bytes "Path not found").length = 14 ∧
    Response.new env0 (reqFor "/p") ⟨[entryCL]⟩ =
      .ok ⟨Status.ok, [("Content-Length", "999")], utf8Bytes "hi"⟩ ∧
    "999" ≠ Nat.repr (utf8Bytes "hi").length := by
  refine ⟨by decide, by decide, by decide, by decide⟩

/-- C1 (amended): for a matched route whose method agrees and whose
`result_headers` do not themselves declare a Content-Length key, every
response the resolver returns carries `Content-Length` equal to the decimal
byte length of its body; the no-match 404 and the method-mismatch 405
responses instead carry an empty header map (hence no Content-Length). -/
theorem c1_content_length_amended :
    (∀ (env : Env) (request : Request) (server : Server) (sd : ServerDataSchema)
      (r : Response),
      matchRoute server.data request.uri = some sd →
      request.method = sd.method →
      avoidsKey sd.result_headers "Content-Length" = true →
      Response.new env request server = .ok r →
      lookupKV r.headers "Content-Length" = some (Nat.repr r.body.length)) ∧
    (∀ (env : Env) (request : Request) (server : Server) (r : Response),
      matchRoute server.data request.uri = none →
      Response.new env request server = .ok r → r.headers = []) ∧
    (∀ (env : Env) (request : Request) (server : Server) (sd : ServerDataSchema)
      (r : Response),
      matchRoute server.data request.uri = some sd →
      request.method ≠ sd.method →
      Response.new env request server = .ok r → r.headers = []) := by
  refine ⟨?_, ?_, ?_⟩
  · intro env request server sd r hm hmeq hav hok
    cases hh : requiredMissing sd.headers request.headers with
    | true =>
      rw [new_of_headers_missing hm hmeq hh] at hok
      exact absurd hok (by simp)
    | false =>
      cases hq : requiredMissing sd.queries request.query_strings with
      | true =>
        rw [new_of_queries_missing hm hmeq hh hq] at hok
        exact absurd hok (by simp)
      | false =>
        rw [new_resolved hm hmeq hh hq] at hok
        cases hr : resolveBody env sd with
        | panic => rw [hr] at hok; exact absurd hok (by simp)
        | err e => rw [hr] at hok; exact absurd hok (by simp)
        | ok hs body =>
          rw [hr] at hok
          have hcl := finishResponse_content_length hav hok
          have hshape := finishResponse_ok_shape hok
          rw [hshape.2]
          exact hcl
  · intro env request server r hm hok
    rw [new_of_match_none hm] at hok
    simp only [RespResult.ok.injEq] at hok
    exact (hok ▸ rfl : r.headers = [])
  · intro env request server sd r hm hne hok
    rw [new_of_method_ne hm hne] at hok
    simp only [RespResult.ok.injEq] at hok
    exact (hok ▸ rfl : r.headers = [])

/-- C1 witness: on a plain matched `direct` route the response carries
`Content-Length: 5` for its 5-byte body. -/
theorem c1_witness :
    lookupKV [("Content-Length", "5")] "Content-Length" =
      some (Nat.repr (utf8Bytes "first").length) :=
  c1_content_length_amended.1 env0 (reqFor "/x") ⟨[entryDup1, entryDup2]⟩ entryDup1
    ⟨Status.ok, [("Content-Length", "5")], utf8Bytes "first"⟩
    (by decide) (by decide) (by decide) (by decide)

/-- C5 counterexample: for the request-target `path?a=1?b=2` the parser keeps
only the text between the first and the second `?` as the query section, so
the value of `a` is `1`, not `1?b=2` as the claim requires. -/
theorem c5_counterexample :
    (parseTarget "path?a=1?b=2").map (fun p => (p.1, lookupKV p.2 "a")) =
      .ok ("path", some "1") ∧
    (.ok ("path", some "1") : Except AppError (String × Option String)) ≠
      .ok ("path", some "1?b=2") := by
  refine ⟨by decide, by decide⟩

/-- C5 (amended): the parser splits the request-target on `?`; the portion
before the first `?` becomes the uri; the query map is built from the portion
between the first and the second `?` only (anything after a second `?` is
discarded), split on `&` with each segment parsed as a trimmed key=value
pair; a request-target with no `?` yields an empty query map; for the target
`path?a=1&b=2` this gives uri `path` and the map a=1, b=2. -/
theorem c5_target_split_amended :
    (∀ t : String, '?' ∉ t.data → parseTarget t = .ok (t, [])) ∧
    (∀ pre q : List Char, '?' ∉ pre → '?' ∉ q →
      parseTarget (String.mk (pre ++ '?' :: q)) =
        (parseQueries (String.mk q)).map (fun qs => (String.mk pre, qs))) ∧
    (∀ pre q rest : List Char, '?' ∉ pre → '?' ∉ q →
      parseTarget (String.mk (pre ++ '?' :: (q ++ '?' :: rest))) =
        (parseQueries (String.mk q)).map (fun qs => (String.mk pre, qs))) ∧
    (∃ qs, parseTarget "path?a=1&b=2" = .ok ("path", qs) ∧
      lookupKV qs "a" = some "1" ∧ lookupKV qs "b" = some "2") := by
  refine ⟨?_, ?_, ?_, ?_⟩
  · intro t ht
    exact parseTarget_no_query ht
  · intro pre q hp hq
    exact parseTarget_one hp hq
  · intro pre q rest hp hq
    exact parseTarget_two hp hq
  · exact ⟨[("b", "2"), ("a", "1")], by decide, by decide, by decide⟩

/-- C5 witness: a target with no `?` parses to itself with an empty query
map, and in `path?a=1?b=2` only the section between the two `?` becomes the
query string. -/
theorem c5_witness :
    parseTarget "plain" = .ok ("plain", []) ∧
    parseTarget (String.mk ("path".data ++ '?' :: ("a=1".data ++ '?' :: "b=2".data))) =
      (parseQueries (String.mk "a=1".data)).map
        (fun qs => (String.mk "path".data, qs)) :=
  ⟨c5_target_split_amended.1 "plain" (by decide),
   c5_target_split_amended.2.2.1 "path".data "a=1".data "b=2".data
     (by decide) (by decide)⟩

/-- C6 counterexample: for the config header `Location: http://x` the resolver
splits on every `:` and keeps only the second segment as the value, so the
response maps `Location` to `http`, not to the whole trimmed remainder
`http://x` as the claim requires. -/
theorem c6_counterexample :
    respHeader (Response.new env0 (reqFor "/l") ⟨[entryLoc]⟩) "Location" =
      some (some "http") ∧
    (some (some "http") : Option (Option String)) ≠ some (some "http://x") := by
  refine ⟨by decide, by decide⟩

/-- C6 (amended): each `result_headers` item is split on `:`; the key is the
text before the first `:` trimmed and the value is the text between the first
and the second `:` trimmed (text after a second `:` is dropped); the items
are applied after every other header, so for an item whose key no later item
redeclares, the final response maps that key to that value, overwriting any
previously set header with the same key — including Content-Type and
Content-Length. -/
theorem c6_result_headers_amended (env : Env) (request : Request) (server : Server)
    (sd : ServerDataSchema) (r : Response) (pre post : List String)
    (item k v : String) (tail : List String)
    (hm : matchRoute server.data request.uri = some sd)
    (hmeq : request.method = sd.method)
    (hrh : sd.result_headers = some (pre ++ item :: post))
    (hsplit : rustSplit item ':' = k :: v :: tail)
    (hpost : ∀ x ∈ post, keyOfItem x ≠ rustTrim k)
    (hok : Response.new env request server = .ok r) :
    lookupKV r.headers (rustTrim k) = some (rustTrim v) := by
  cases hh : requiredMissing sd.headers request.headers with
  | true =>
    rw [new_of_headers_missing hm hmeq hh] at hok
    exact absurd hok (by simp)
  | false =>
    cases hq : requiredMissing sd.queries request.query_strings with
    | true =>
      rw [new_of_queries_missing hm hmeq hh hq] at hok
      exact absurd hok (by simp)
    | false =>
      rw [new_resolved hm hmeq hh hq] at hok
      cases hr : resolveBody env sd with
      | panic => rw [hr] at hok; exact absurd hok (by simp)
      | err e => rw [hr] at hok; exact absurd hok (by simp)
      | ok hs body =>
        rw [hr] at hok
        simp only [finishResponse, hrh] at hok
        split at hok
        · rename_i hs3 happ
          simp only [RespResult.ok.injEq] at hok
          have hhd : r.headers = hs3 := (hok ▸ rfl : r.headers = hs3)
          rw [hhd]
          exact applyResultHeaders_last hsplit hpost happ
        · simp at hok

/-- C6 witness: the config header `Content-Type: text/plain` on a `direct`
route ends up in the response mapping `Content-Type` to `text/plain`. -/
theorem c6_witness :
    lookupKV [("Content-Type", "text/plain"), ("Content-Length", "1")]
      (rustTrim "Content-Type") = some (rustTrim " text/plain") :=
  c6_result_headers_amended env0 (reqFor "/m") ⟨[entryCT]⟩ entryCT
    ⟨Status.ok, [("Content-Type", "text/plain"), ("Content-Length", "1")], utf8Bytes "x"⟩
    [] [] "Content-Type: text/plain" "Content-Type" " text/plain" []
    (by decide) (by decide) rfl (by decide) (by decide) (by decide)

/- Further body-resolution lemmas used for the download-header claim. -/

theorem resolveBody_dl_nofile {env : Env} {sd : ServerDataSchema}
    (h3 : sd.result_type = "dl") (hf : env.isFile sd.result = false) :
    resolveBody env sd = .err .ConfigFileOpenError := by
  simp [resolveBody, h3, hf]

theorem resolveBody_dl_noread {env : Env} {sd : ServerDataSchema} {fn : String}
    (h3 : sd.result_type = "dl") (hf : env.isFile sd.result = true)
    (hfn : fileName sd.result = some fn) (hrb : env.readBytes sd.result = none) :
    resolveBody env sd = .err .IoError := by
  simp [resolveBody, h3, hf, hfn, hrb]

theorem resolveBody_hs_nil {env : Env} {sd : ServerDataSchema}
    {hs : List (String × String)} {body : List UInt8}
    (h : sd.result_type = "direct" ∨ sd.result_type = "file")
    (hr : resolveBody env sd = .ok hs body) : hs = [] := by
  cases h with
  | inl hd =>
    rw [resolveBody_direct hd] at hr
    injection hr with h1 h2
    exact h1.symm
  | inr hf =>
    have h1 : sd.result_type ≠ "direct" := by rw [hf]; decide
    unfold resolveBody at hr
    rw [if_neg h1, if_pos hf] at hr
    cases hif : env.isFile sd.result with
    | false => rw [hif] at hr; simp at hr
    | true =>
      rw [hif] at hr
      simp only [Bool.not_true, Bool.false_eq_true, if_false] at hr
      cases hrs : env.readToString sd.result with
      | none => rw [hrs] at hr; simp at hr
      | some s =>
        rw [hrs] at hr
        injection hr with h1 h2
        exact h1.symm

/-- C7 counterexample: a `direct` route whose config declares
`Content-Disposition: inline` produces a response with Content-Disposition
set (the claim says it is never set for `direct`/`file`); and a `dl` route
whose config declares the same header serves `inline` rather than the
attachment disposition the claim requires. -/
theorem c7_counterexample :
    respHeader (Response.new env0 (reqFor "/c") ⟨[entryCD]⟩) "Content-Disposition" =
      some (some "inline") ∧
    respHeader (Response.new env1 (reqFor "/d") ⟨[entryDlOverride]⟩)
      "Content-Disposition" = some (some "inline") ∧
    (some (some "inline") : Option (Option String)) ≠
      some (some ("attachment; filename=" ++ "a.txt")) := by
  refine ⟨by decide, by decide, by decide⟩

/-- C7 (amended): for a matched `dl` route over a regular file, provided the
entry's `result_headers` do not themselves redeclare the key, the response
carries `Content-Disposition: attachment; filename=<basename>`,
`Accept-Ranges: None`, and `Content-Type` given by the Content-Type Resolver
on the file's extension (the empty string when there is no extension); and
for a matched `direct` or `file` route whose `result_headers` do not declare
Content-Disposition, the response carries no Content-Disposition header. -/
theorem c7_dl_headers_amended :
    (∀ (env : Env) (request : Request) (server : Server) (sd : ServerDataSchema)
      (r : Response) (fn : String),
      matchRoute server.data request.uri = some sd →
      request.method = sd.method →
      sd.result_type = "dl" →
      fileName sd.result = some fn →
      avoidsKey sd.result_headers "Content-Disposition" = true →
      avoidsKey sd.result_headers "Accept-Ranges" = true →
      avoidsKey sd.result_headers "Content-Type" = true →
      Response.new env request server = .ok r →
      lookupKV r.headers "Content-Disposition" =
        some ("attachment; filename=" ++ fn) ∧
      lookupKV r.headers "Accept-Ranges" = some "None" ∧
      lookupKV r.headers "Content-Type" =
        some (match extension sd.result with
              | some e => env.getMimeType e
              | none => "")) ∧
    (∀ (env : Env) (request : Request) (server : Server) (sd : ServerDataSchema)
      (r : Response),
      matchRoute server.data request.uri = some sd →
      request.method = sd.method →
      (sd.result_type = "direct" ∨ sd.result_type = "file") →
      avoidsKey sd.result_headers "Content-Disposition" = true →
      Response.new env request server = .ok r →
      lookupKV r.headers "Content-Disposition" = none) := by
  constructor
  · intro env request server sd r fn hm hmeq h3 hfn havCD havAR havCT hok
    cases hh : requiredMissing sd.headers request.headers with
    | true =>
      rw [new_of_headers_missing hm hmeq hh] at hok
      exact absurd hok (by simp)
    | false =>
      cases hq : requiredMissing sd.queries request.query_strings with
      | true =>
        rw [new_of_queries_missing hm hmeq hh hq] at hok
        exact absurd hok (by simp)
      | false =>
        rw [new_resolved hm hmeq hh hq] at hok
        cases hf : env.isFile sd.result with
        | false =>
          rw [resolveBody_dl_nofile h3 hf] at hok
          exact absurd hok (by simp)
        | true =>
          cases hrb : env.readBytes sd.result with
          | none =>
            rw [resolveBody_dl_noread h3 hf hfn hrb] at hok
            exact absurd hok (by simp)
          | some bs =>
            rw [resolveBody_dl h3 hf hfn hrb] at hok
            refine ⟨?_, ?_, ?_⟩
            · rw [finishResponse_preserve (by decide) (by decide) havCD hok]
              exact lookupKV_insertKV_self _ _ _
            · rw [finishResponse_preserve (by decide) (by decide) havAR hok,
                lookupKV_insertKV_ne _ _ (by decide)]
              exact lookupKV_insertKV_self _ _ _
            · rw [finishResponse_preserve (by decide) (by decide) havCT hok,
                lookupKV_insertKV_ne _ _ (by decide),
                lookupKV_insertKV_ne _ _ (by decide)]
              exact lookupKV_insertKV_self _ _ _
  · intro env request server sd r hm hmeq hdf hav hok
    cases hh : requiredMissing sd.headers request.headers with
    | true =>
      rw [new_of_headers_missing hm hmeq hh] at hok
      exact absurd hok (by simp)
    | false =>
      cases hq : requiredMissing sd.queries request.query_strings with
      | true =>
        rw [new_of_queries_missing hm hmeq hh hq] at hok
        exact absurd hok (by simp)
      | false =>
        rw [new_resolved hm hmeq hh hq] at hok
        cases hr : resolveBody env sd with
        | panic => rw [hr] at hok; exact absurd hok (by simp)
        | err e => rw [hr] at hok; exact absurd hok (by simp)
        | ok hs body =>
          rw [hr] at hok
          have hnil := resolveBody_hs_nil hdf hr
          subst hnil
          rw [finishResponse_preserve (by decide) (by decide) hav hok]
          rfl

/-- C7 witness: the plain `dl` route over the one-file filesystem serves
`a.txt` with the attachment disposition, `Accept-Ranges: None` and the
resolver's MIME type for `txt`; a plain `direct` route serves no
Content-Disposition. -/
theorem c7_witness :
    (lookupKV rDl.headers "Content-Disposition" =
        some ("attachment; filename=" ++ "a.txt") ∧
      lookupKV rDl.headers "Accept-Ranges" = some "None" ∧
      lookupKV rDl.headers "Content-Type" =
        some (match extension entryDlPlain.result with
              | some e => env1.getMimeType e
              | none => "")) ∧
    lookupKV [("Content-Length", "5")] "Content-Disposition" = none :=
  ⟨c7_dl_headers_amended.1 env1 (reqFor "/d") ⟨[entryDlPlain]⟩ entryDlPlain rDl "a.txt"
      (by decide) (by decide) rfl (by decide) rfl rfl rfl (by decide),
   c7_dl_headers_amended.2 env0 (reqFor "/x") ⟨[entryDup1, entryDup2]⟩ entryDup1
      ⟨Status.ok, [("Content-Length", "5")], utf8Bytes "first"⟩
      (by decide) (by decide) (Or.inl rfl) rfl (by decide)⟩
